import Mathlib

/-!
Verification of the scaffolding generator (`packages/@vue/cli/lib/Generator.js`).

The development shallowly embeds the generator's data model and operations:
manifests and virtual file trees are ordered association lists (JavaScript
objects preserve string-key insertion order), JSON values are an inductive
type, and effectful callbacks (plugin `apply`/`hooks`, file middlewares,
post-process callbacks, injection engines) are modelled as functions or as
explicit registration records.  External collaborators that are not part of
the source slice (`sortObject`, `normalizeFilePaths`, `ConfigTransform`,
`cli-shared-utils`, `semver`, the codemod engines) are modelled from the
specification; each such definition carries a doc comment starting with
"Modelled from the spec:".
-/

/-- A JSON value as stored in a `package.json` manifest.  Objects and arrays
keep insertion order, as JavaScript objects and arrays do. -/
inductive Value where
  | null : Value
  | bool : Bool → Value
  | num : Int → Value
  | str : String → Value
  | arr : List Value → Value
  | obj : List (String × Value) → Value

/-- A manifest (`package.json` contents): ordered association list from field
name to JSON value. -/
abbrev Manifest := List (String × Value)

/-- The virtual file tree: ordered association list from relative path to
file content. -/
abbrev Files := List (String × String)

/-- Property lookup on a JavaScript object: first entry whose key matches. -/
def lookupKey {α : Type} : List (String × α) → String → Option α
  | [], _ => none
  | kv :: rest, k => if kv.1 == k then some kv.2 else lookupKey rest k

/-- Property assignment on a JavaScript object: an existing key keeps its
position and gets the new value; a fresh key is appended at the end. -/
def setKey {α : Type} : List (String × α) → String → α → List (String × α)
  | [], k, v => [(k, v)]
  | kv :: rest, k, v => if kv.1 == k then (k, v) :: rest else kv :: setKey rest k v

/-- Property deletion on a JavaScript object (`delete obj[k]`). -/
def removeKey {α : Type} (m : List (String × α)) (k : String) : List (String × α) :=
  m.filter (fun kv => kv.1 != k)

/-- JavaScript truthiness of a manifest value (an absent property is handled
at the use sites). -/
def truthy : Value → Bool
  | .null => false
  | .bool b => b
  | .num n => n != 0
  | .str s => s != ""
  | .arr _ => true
  | .obj _ => true

/-- Truthiness of `m[k]` in JavaScript: an absent property is `undefined`,
hence falsy. -/
def truthyAt (m : Manifest) (k : String) : Bool :=
  match lookupKey m k with
  | some v => truthy v
  | none => false

/-- Whether the first list is an initial run of the second. -/
def listIsLead : List Char → List Char → Bool
  | [], _ => true
  | _ :: _, [] => false
  | a :: as, b :: bs => a == b && listIsLead as bs

/-- Whether `lead` begins the string `s` (kept on character lists so that it
evaluates inside the kernel). -/
def strStartsWith (s lead : String) : Bool :=
  listIsLead lead.data s.data

/-- Drop a literal leading piece of a string when present. -/
def dropLead (lead s : String) : String :=
  if strStartsWith s lead then String.mk (s.data.drop lead.data.length) else s

/-- `ensureEOL` from Generator.js lines 63-68: append a trailing newline when
the last character (if any) is not already one. -/
def ensureEOL (s : String) : String :=
  if (s.data.getLast?.map Char.toNat) == some 10 then s else s ++ "\n"

/-- One hexadecimal digit (lower case), for JSON string escapes. -/
def hexDigit (n : Nat) : Char :=
  if n < 10 then Char.ofNat (48 + n) else Char.ofNat (87 + n)

/-- Four hexadecimal digits, for JSON `\uXXXX` escapes. -/
def hex4 (n : Nat) : String :=
  String.mk [hexDigit (n / 4096 % 16), hexDigit (n / 256 % 16),
             hexDigit (n / 16 % 16), hexDigit (n % 16)]

/-- JSON escaping of a single character, as `JSON.stringify` performs it. -/
def escapeJsonChar (c : Char) : String :=
  if c.toNat = 34 then "\\\""
  else if c.toNat = 92 then "\\\\"
  else if c.toNat = 8 then "\\b"
  else if c.toNat = 9 then "\\t"
  else if c.toNat = 10 then "\\n"
  else if c.toNat = 12 then "\\f"
  else if c.toNat = 13 then "\\r"
  else if c.toNat < 32 then "\\u" ++ hex4 c.toNat
  else String.singleton c

/-- A JSON string literal, quoted and escaped. -/
def quoteJson (s : String) : String :=
  "\"" ++ String.join (s.toList.map escapeJsonChar) ++ "\""

/-- Indentation of `n` spaces, as produced by `JSON.stringify(v, null, 2)`. -/
def jsonIndent (n : Nat) : String :=
  String.mk (List.replicate n ' ')

mutual

/-- `JSON.stringify(v, null, 2)` at a given current indentation depth. -/
def stringifyValue : Nat → Value → String
  | _, .null => "null"
  | _, .bool true => "true"
  | _, .bool false => "false"
  | _, .num n => toString n
  | _, .str s => quoteJson s
  | ind, .arr xs =>
    if xs.isEmpty then "[]"
    else "[\n" ++ stringifyArrItems (ind + 2) xs ++ "\n" ++ jsonIndent ind ++ "]"
  | ind, .obj kvs =>
    if kvs.isEmpty then "\x7b\x7d"
    else "\x7b\n" ++ stringifyObjFields (ind + 2) kvs ++ "\n" ++ jsonIndent ind ++ "\x7d"

/-- Array items of `JSON.stringify`, comma-and-newline separated. -/
def stringifyArrItems : Nat → List Value → String
  | _, [] => ""
  | ind, [x] => jsonIndent ind ++ stringifyValue ind x
  | ind, x :: y :: xs =>
    jsonIndent ind ++ stringifyValue ind x ++ ",\n" ++ stringifyArrItems ind (y :: xs)

/-- Object fields of `JSON.stringify`, comma-and-newline separated. -/
def stringifyObjFields : Nat → List (String × Value) → String
  | _, [] => ""
  | ind, [kv] => jsonIndent ind ++ quoteJson kv.1 ++ ": " ++ stringifyValue ind kv.2
  | ind, kv :: kw :: kvs =>
    jsonIndent ind ++ quoteJson kv.1 ++ ": " ++ stringifyValue ind kv.2 ++ ",\n"
      ++ stringifyObjFields ind (kw :: kvs)

end

/-- `JSON.stringify(v, null, 2)`: pretty-printed two-space-indented JSON. -/
def stringifyJson (v : Value) : String :=
  stringifyValue 0 v

/-- Sanity check of the serializer against `JSON.stringify(v, null, 2)`. -/
theorem stringifyJson_sample :
    stringifyJson (.obj [("name", .str "x"), ("n", .num 3)])
      = "\x7b\n  \"name\": \"x\",\n  \"n\": 3\n\x7d" := by rfl

/-! ## Manifest sorting (`Generator.sortPkg`, lines 205-243)

The helper `sortObject` lives in `lib/util/sortObject.js`, which is not part
of the source slice; its behaviour is modelled from the spec (section 4.4
step 4): listed keys are reordered to the given priority list, unlisted keys
trail in original order, and the dependency fields are sorted alphabetically
by package name. -/

/-- The fixed canonical priority list for top-level manifest keys
(Generator.js lines 217-240). -/
def pkgKeyOrder : List String :=
  ["name", "version", "private", "description", "author", "scripts", "main",
   "module", "browser", "jsDelivr", "unpkg", "files", "dependencies",
   "devDependencies", "peerDependencies", "vue", "babel", "eslintConfig",
   "prettier", "postcss", "browserslist", "jest"]

/-- The fixed priority list for `scripts` entries (Generator.js lines 209-216). -/
def scriptsKeyOrder : List String :=
  ["serve", "build", "test", "e2e", "lint", "deploy"]

/-- Modelled from the spec: `sortObject` with a key order reorders the listed
keys (those present) to the front in priority order, with unlisted keys
trailing in original order. -/
def sortByPriority (keyOrder : List String) (m : Manifest) : Manifest :=
  keyOrder.filterMap (fun k => (lookupKey m k).map (fun v => (k, v)))
    ++ m.filter (fun kv => !(keyOrder.contains kv.1))

/-- Insertion step of the alphabetical entry sort. -/
def insertByKey (kv : String × Value) : List (String × Value) → List (String × Value)
  | [] => [kv]
  | x :: xs => if kv.1 < x.1 then kv :: x :: xs else x :: insertByKey kv xs

/-- Alphabetical (insertion) sort of object entries by key. -/
def sortEntriesByKey (m : List (String × Value)) : List (String × Value) :=
  m.foldr insertByKey []

/-- Modelled from the spec: `sortObject` without a key order sorts a
dependency object's entries alphabetically by package name; a non-object
value is left alone. -/
def sortDepsValue : Value → Value
  | .obj kvs => .obj (sortEntriesByKey kvs)
  | v => v

/-- Modelled from the spec: the `scripts` object is sorted with the fixed
priority prefix, remaining scripts trailing in original order. -/
def sortScriptsValue : Value → Value
  | .obj kvs => .obj (sortByPriority scriptsKeyOrder kvs)
  | v => v

/-- Update the value stored at one key of an object, when present; an absent
key stays absent.  (In the source the assignment of `sortObject(undefined)`
stores `undefined`, which `JSON.stringify` drops again, so presence-preserving
update is the observable behaviour.) -/
def mapValueAt (key : String) (f : Value → Value) (m : Manifest) : Manifest :=
  m.map (fun kv => if kv.1 == key then (kv.1, f kv.2) else kv)

/-- `Generator.sortPkg` (lines 205-243): sort `dependencies` and
`devDependencies` alphabetically, sort `scripts` with its priority prefix,
then reorder the top-level keys to the canonical priority list. -/
def sortPkg (pkg : Manifest) : Manifest :=
  sortByPriority pkgKeyOrder
    (mapValueAt "scripts" sortScriptsValue
      (mapValueAt "devDependencies" sortDepsValue
        (mapValueAt "dependencies" sortDepsValue pkg)))

/-! ## Config transforms (`Generator.extractConfigFiles`, lines 163-203) -/

/-- Modelled from the spec: `ConfigTransform` (lib/ConfigTransform.js is not
in the source slice) converts a manifest field value into file content plus a
target filename; with `checkExisting` set it may consult files already in the
tree to pick the filename.  The transform rule is kept abstract as a
function. -/
structure ConfigTransform where
  transform : Value → Bool → Files → String × String

/-- Modelled from the spec: a script-format config transform emits the field
value as an assigned module value. -/
def moduleExportsContent (v : Value) : String :=
  "module.exports = " ++ stringifyJson v

/-- A transform that always emits a script-format file with the given name. -/
def mkFileTransform (filename : String) : ConfigTransform :=
  ⟨fun v _ _ => (moduleExportsContent v, filename)⟩

/-- One line of a line-list config file. -/
def lineStr : Value → String
  | .str s => s
  | v => stringifyJson v

/-- Modelled from the spec: a line-list config transform joins array elements
with newlines. -/
def linesContent : Value → String
  | .arr xs => String.intercalate "\n" (xs.map lineStr)
  | v => stringifyJson v

/-- `defaultConfigTransforms` (Generator.js lines 23-53): the built-in
transforms; keys and primary candidate filenames are from the source, the
transform bodies are modelled from the spec. -/
def defaultConfigTransforms : List (String × ConfigTransform) :=
  [("babel", mkFileTransform "babel.config.js"),
   ("postcss", mkFileTransform "postcss.config.js"),
   ("eslintConfig", mkFileTransform ".eslintrc.js"),
   ("jest", mkFileTransform "jest.config.js"),
   ("browserslist", ⟨fun v _ _ => (linesContent v, ".browserslistrc")⟩)]

/-- `reservedConfigTransforms` (Generator.js lines 55-61). -/
def reservedConfigTransforms : List (String × ConfigTransform) :=
  [("vue", mkFileTransform "vue.config.js")]

/-- The merged transform registry built at the start of `extractConfigFiles`
(lines 164-168): `Object.assign({}, defaults, plugin-contributed, reserved)`,
so reserved transforms override plugin-contributed ones, which override the
defaults. -/
def mergedTransforms (pluginTransforms : List (String × ConfigTransform)) :
    String → Option ConfigTransform :=
  fun k =>
    match lookupKey reservedConfigTransforms k with
    | some ct => some ct
    | none =>
      match lookupKey pluginTransforms k with
      | some ct => some ct
      | none => lookupKey defaultConfigTransforms k

/-- The generator state touched by config extraction: the working manifest
(`this.pkg`), the pre-run original manifest (`this.originalPkg`) and the
virtual file tree (`this.files`). -/
structure GenState where
  pkg : Manifest
  originalPkg : Manifest
  files : Files

/-- The inner `extract(key)` of `extractConfigFiles` (lines 169-188): when a
transform is registered for the key, the working manifest's value at the key
is truthy, and the original manifest's value at the key is falsy (the source
checks `!this.originalPkg[key]`), the transform's content is written into the
tree (with a trailing newline ensured) and the key is deleted from the
working manifest; otherwise nothing happens. -/
def extractOne (tr : String → Option ConfigTransform) (checkExisting : Bool)
    (k : String) (st : GenState) : GenState :=
  match tr k, lookupKey st.pkg k with
  | some ct, some v =>
    if truthy v && !(truthyAt st.originalPkg k) then
      let r := ct.transform v checkExisting st.files
      { st with
        files := setKey st.files r.2 (ensureEOL r.1),
        pkg := removeKey st.pkg k }
    else st
  | _, _ => st

/-- The `extract(key)` guard condition of lines 170-175:
`configTransforms[key] && this.pkg[key] && !this.originalPkg[key]`. -/
def extractGuard (tr : String → Option ConfigTransform) (k : String) (st : GenState) : Bool :=
  (tr k).isSome && truthyAt st.pkg k && !(truthyAt st.originalPkg k)

/-- Sequential extraction over a list of keys (the `for (const key in
this.pkg)` loop of lines 190-192; a key deleted by its own visit is not
revisited, and `extract` only ever deletes the key it is visiting). -/
def extractFold (tr : String → Option ConfigTransform) (checkExisting : Bool)
    (keys : List String) (st : GenState) : GenState :=
  keys.foldl (fun s k => extractOne tr checkExisting k s) st

/-- `Generator.extractConfigFiles` (lines 163-203).  `vueCliTest` models the
`process.env.VUE_CLI_TEST` flag.  With `extractAll` the extraction is
attempted on every key of the working manifest; otherwise `vue` is attempted
only when the test flag is unset, and `babel` is always attempted. -/
def extractConfigFiles (tr : String → Option ConfigTransform) (vueCliTest : Bool)
    (extractAll checkExisting : Bool) (st : GenState) : GenState :=
  if extractAll then
    extractFold tr checkExisting (st.pkg.map Prod.fst) st
  else
    let st := if !vueCliTest then extractOne tr checkExisting "vue" st else st
    extractOne tr checkExisting "babel" st

/-! ## File resolution (`Generator.resolveFiles`, lines 245-282) -/

/-- The environment of `resolveFiles`: registered file middlewares and
post-process callbacks (run by `await` in registration order, modelled as
tree transformers), the deferred injection ledgers (`this.imports` and
`this.rootOptions`, per-path ordered entry lists), and the two codemod
engines (`injectImports` / `injectOptions` from lib/util/codemods, external
collaborators kept abstract: path, current source and entry list to new
source). -/
structure ResolveEnv where
  fileMiddlewares : List (Files → Files)
  imports : List (String × List String)
  rootOptions : List (String × List String)
  postProcessFilesCbs : List (Files → Files)
  injectImports : String → String → List String → String
  injectOptions : String → String → List String → String

/-- Backslash-to-forward-slash conversion of one path. -/
def slashPath (p : String) : String :=
  String.mk (p.data.map (fun c => if c.toNat = 92 then Char.ofNat 47 else c))

/-- Modelled from the spec: `normalizeFilePaths` (lib/util/normalizeFilePaths.js
is not in the source slice) rewrites every path key of the tree to
forward-slash form; when two keys collide after normalization exactly one
entry survives (the later write wins). -/
def normalizeFilePaths (files : Files) : Files :=
  files.foldl (fun acc kv => setKey acc (slashPath kv.1) kv.2) []

/-- The ledger's recorded entry list for a path (`this.imports[file]` /
`this.rootOptions[file]`, converted from a `Set` in insertion order); an
absent path has no entries. -/
def lookupLedger (ledger : List (String × List String)) (path : String) : List String :=
  (lookupKey ledger path).getD []

/-- The per-path injection step of `resolveFiles` (lines 256-276): when the
ledger of imports for the path is non-empty the import engine runs first,
then when the option ledger is non-empty the option engine runs on the
result; a path with no ledger entries keeps its content. -/
def injectFileContent (env : ResolveEnv) (path content : String) : String :=
  let imps := lookupLedger env.imports path
  let c1 := if imps.isEmpty then content else env.injectImports path content imps
  let injs := lookupLedger env.rootOptions path
  if injs.isEmpty then c1 else env.injectOptions path c1 injs

/-- Stage 1 of `resolveFiles`: each registered file middleware, in
registration order (lines 247-249). -/
def middlewarePass (mws : List (Files → Files)) (files : Files) : Files :=
  mws.foldl (fun fs mw => mw fs) files

/-- Stage 3 of `resolveFiles`: the injection step applied to every path of
the tree (lines 256-276). -/
def injectionPass (env : ResolveEnv) (files : Files) : Files :=
  files.map (fun kv => (kv.1, injectFileContent env kv.1 kv.2))

/-- Stage 4 of `resolveFiles`: each registered post-process callback, in
registration order (lines 278-280). -/
def postProcessPass (cbs : List (Files → Files)) (files : Files) : Files :=
  cbs.foldl (fun fs cb => cb fs) files

/-- `Generator.resolveFiles` (lines 245-282): middlewares, then path
normalization, then per-path injection, then post-process callbacks. -/
def resolveFiles (env : ResolveEnv) (files : Files) : Files :=
  let files := middlewarePass env.fileMiddlewares files
  let files := normalizeFilePaths files
  let files := injectionPass env files
  postProcessPass env.postProcessFilesCbs files

/-! ## The generation pipeline (`Generator.generate`, lines 146-161) -/

/-- What `generate` hands to the external writer: the final tree, the initial
snapshot taken before extraction, plus the final sorted manifest. -/
structure GenResult where
  files : Files
  initialFiles : Files
  pkg : Manifest

/-- `Generator.generate` (lines 146-161): snapshot the tree, extract config
files from the manifest, resolve the tree, sort the manifest, overwrite the
tree's `package.json` entry with the pretty-printed serialization of the
sorted manifest plus a trailing newline, and hand tree and snapshot to the
writer. -/
def generate (tr : String → Option ConfigTransform) (vueCliTest : Bool)
    (renv : ResolveEnv) (extractAll checkExisting : Bool) (st : GenState) :
    GenResult :=
  let initialFiles := st.files
  let st1 := extractConfigFiles tr vueCliTest extractAll checkExisting st
  let files1 := resolveFiles renv st1.files
  let pkg1 := sortPkg st1.pkg
  let files2 := setKey files1 "package.json" (stringifyJson (.obj pkg1) ++ "\n")
  ⟨files2, initialFiles, pkg1⟩

/-! ## The plugin hook composer (`Generator` constructor, lines 70-144) -/

/-- What one invocation of a plugin's `hooks` function (or of its `apply`)
registers through the modelled `GeneratorAPI` handle.  Modelled from the
spec: `GeneratorAPI.js` is not in the source slice; registering a callback
appends it to the generator's current corresponding list. -/
structure HookRegs (Cb : Type) where
  afterInvoke : List Cb := []
  afterAnyInvoke : List Cb := []
  postProcessFiles : List Cb := []

/-- One plugin of the explicit invocation list (`plugins` constructor
argument): its id, what its `apply` registers, and what `apply.hooks`
registers when present. -/
structure InvokedPlugin (Cb : Type) where
  id : String
  applyRegs : HookRegs Cb
  applyHooks : Option (HookRegs Cb)

/-- The constructor inputs that feed the hook composition: the manifest, the
explicit plugin list, the caller-supplied seed callback lists, the
plugin-name predicate `isPlugin` (from cli-shared-utils, external) and the
`loadModule(id + "/generator").hooks` lookup for installed plugins, modelled
as what that hooks function registers (none when the module has no hooks). -/
structure ComposeInput (Cb : Type) where
  pkg : Manifest
  plugins : List (InvokedPlugin Cb)
  afterInvokeCbs : List Cb
  afterAnyInvokeCbs : List Cb
  isPlugin : String → Bool
  loadHooks : String → Option (HookRegs Cb)

/-- The keys of an object-valued manifest field (`Object.keys(x || {})`); a
missing or non-object field contributes no keys. -/
def objKeys : Option Value → List String
  | some (.obj kvs) => kvs.map Prod.fst
  | _ => []

/-- `this.allPlugins` (lines 104-106): every dependency or devDependency of
the manifest that is a plugin, dependencies first, in manifest order. -/
def allPlugins (pkg : Manifest) (isPlugin : String → Bool) : List String :=
  (objKeys (lookupKey pkg "dependencies") ++ objKeys (lookupKey pkg "devDependencies")).filter
    isPlugin

/-- The three callback accumulators of the generator during hook
composition. -/
structure HookState (Cb : Type) where
  afterInvokeCbs : List Cb
  afterAnyInvokeCbs : List Cb
  postProcessFilesCbs : List Cb

/-- Append one registration record to the generator's current callback
lists. -/
def applyRegsToState {Cb : Type} (s : HookState Cb) (r : HookRegs Cb) : HookState Cb :=
  { afterInvokeCbs := s.afterInvokeCbs ++ r.afterInvoke,
    afterAnyInvokeCbs := s.afterAnyInvokeCbs ++ r.afterAnyInvoke,
    postProcessFilesCbs := s.postProcessFilesCbs ++ r.postProcessFiles }

/-- One step of the discovery pass (lines 114-121): when the installed
plugin's generator module exports `hooks`, run it (that is, append what it
registers); otherwise leave the state alone. -/
def discoveryStep {Cb : Type} (loadHooks : String → Option (HookRegs Cb))
    (s : HookState Cb) (id : String) : HookState Cb :=
  match loadHooks id with
  | some r => applyRegsToState s r
  | none => s

/-- One step of the apply pass (lines 133-140): run the plugin's `apply`,
then its `apply.hooks` when present. -/
def applyPassStep {Cb : Type} (s : HookState Cb) (p : InvokedPlugin Cb) : HookState Cb :=
  let s2 := applyRegsToState s p.applyRegs
  match p.applyHooks with
  | some r => applyRegsToState s2 r
  | none => s2

/-- The hook composition of the `Generator` constructor (lines 86-143):
initialize the lists (after-invoke empty, after-any-invoke from the caller
seed, post-process empty); discovery pass over all installed plugins running
their `hooks`; save the after-any-invoke list; reset (after-invoke to the
caller seed, the other two cleared); apply pass over the explicit plugin
list running `apply` and then `apply.hooks`; finally assign the saved
after-any-invoke list back (line 143 replaces the list, it does not merge). -/
def composeHooks {Cb : Type} (inp : ComposeInput Cb) : HookState Cb :=
  let s : HookState Cb := ⟨[], inp.afterAnyInvokeCbs, []⟩
  let s := (allPlugins inp.pkg inp.isPlugin).foldl (discoveryStep inp.loadHooks) s
  let fromPlugins := s.afterAnyInvokeCbs
  let s : HookState Cb := ⟨inp.afterInvokeCbs, [], []⟩
  let s := inp.plugins.foldl applyPassStep s
  { s with afterAnyInvokeCbs := fromPlugins }

/-- One accumulation step of `hookAnyList`. -/
def hookAnyStep {Cb : Type} (loadHooks : String → Option (HookRegs Cb))
    (acc : List Cb) (id : String) : List Cb :=
  match loadHooks id with
  | some r => acc ++ r.afterAnyInvoke
  | none => acc

/-- The concatenation of the after-any-invoke callbacks registered by the
discovery pass, in installed-plugin order. -/
def hookAnyList {Cb : Type} (inp : ComposeInput Cb) : List Cb :=
  (allPlugins inp.pkg inp.isPlugin).foldl (hookAnyStep inp.loadHooks) []

/-- The concatenation of the after-any-invoke callbacks registered by the
apply pass (each plugin's `apply` followed by its `apply.hooks`). -/
def applyAnyList {Cb : Type} (plugins : List (InvokedPlugin Cb)) : List Cb :=
  plugins.foldl
    (fun acc p =>
      acc ++ p.applyRegs.afterAnyInvoke ++
        (match p.applyHooks with
         | some r => r.afterAnyInvoke
         | none => [])) []

/-- The discovery pass's `hooks` invocations (lines 113-121): for each
installed plugin whose generator module exports `hooks`, the pair of the
plugin id and the plugin-id list passed as the invocation's fourth argument
(the source passes `pluginIds`, line 101: the ids of the explicit plugin
list). -/
def discoveryHookCalls {Cb : Type} (inp : ComposeInput Cb) : List (String × List String) :=
  (allPlugins inp.pkg inp.isPlugin).filterMap
    (fun id => (inp.loadHooks id).map (fun _ => (id, inp.plugins.map InvokedPlugin.id)))

/-! ## Plugin/version registry (`Generator.hasPlugin`, lines 284-300) -/

/-- The part of a scoped package id after its first slash. -/
def afterSlash (id : String) : String :=
  String.mk ((id.data.dropWhile (fun c => c.toNat != 47)).drop 1)

/-- Modelled from the spec: `toShortPluginId` (cli-shared-utils, external)
reduces a plugin id to its short form with the scope and the cli-plugin
naming piece stripped. -/
def toShortPluginId (id : String) : String :=
  let s := if strStartsWith id "@" then afterSlash id else id
  dropLead "cli-plugin-" (dropLead "vue-" s)

/-- Modelled from the spec: `matchesPluginId` (cli-shared-utils, external)
matches an input against a full plugin id by exact equality or by
short/scoped-form equivalence. -/
def matchesPluginId (input full : String) : Bool :=
  input == full || toShortPluginId input == toShortPluginId full

/-- Modelled from the spec: `semver.satisfies` (external) applied to the
package manager's resolved installed version; a missing or unresolvable
installed version fails the range check (it never errors).  The range test
on a concrete version is kept abstract. -/
def semverSatisfies (v : Option String) (range : String)
    (rangeTest : String → String → Bool) : Bool :=
  match v with
  | some ver => rangeTest ver range
  | none => false

/-- The generator state consulted by `hasPlugin`: the explicit plugin id
list, the manifest (for `this.allPlugins`), the plugin-name predicate, the
package manager's installed-version lookup and the semver range test (both
external collaborators, kept abstract). -/
structure PluginRegistry where
  plugins : List String
  pkg : Manifest
  isPlugin : String → Bool
  installedVersion : String → Option String
  rangeTest : String → String → Bool

/-- `Generator.hasPlugin` (lines 284-300): some candidate among the explicit
ids followed by the installed set matches the queried id, and, when a range
is supplied, its installed version satisfies the range. -/
def hasPlugin (r : PluginRegistry) (id : String) (version : Option String) : Bool :=
  (r.plugins ++ allPlugins r.pkg r.isPlugin).any
    (fun pid =>
      if !matchesPluginId id pid then false
      else
        match version with
        | none => true
        | some range => semverSatisfies (r.installedVersion pid) range r.rangeTest)

/-! ## Exit log queue (`Generator.printExitLogs`, lines 302-315) -/

/-- One queued exit log entry (`{ id, msg, type }`). -/
structure ExitLog where
  id : String
  msg : String
  type : String

/-- The recognized severity tags, the keys of `logTypes` (lines 15-21). -/
def logTypeNames : List String :=
  ["log", "info", "done", "warn", "error"]

/-- `logTypes[type]`: the log channel for a severity tag, none when
unrecognized. -/
def logTypeOf (t : String) : Option String :=
  if logTypeNames.contains t then some t else none

/-- `Generator.printExitLogs` (lines 302-315), modelled as the emitted list
of (channel, message, tag) actions: each queued entry in insertion order —
a recognized severity emits the entry's message on its channel with the
short plugin id as tag (the source passes `msg && shortId`, so an empty
message yields itself as tag); an unrecognized severity emits an error whose
message names the invalid type, tagged with the short plugin id, and the
entry's own message is not part of the action.  A non-empty queue ends with
a blank `logger.log()` line; an empty queue emits nothing. -/
def printExitLogs (logs : List ExitLog) : List (String × String × String) :=
  if logs.isEmpty then []
  else
    (logs.map (fun e =>
      match logTypeOf e.type with
      | some ch => (ch, e.msg, if e.msg == "" then "" else toShortPluginId e.id)
      | none =>
        ("error", "Invalid api.exitLog type \x27" ++ e.type ++ "\x27.",
          toShortPluginId e.id)))
      ++ [("log", "", "")]

/-- Decidable substring test used to state that a message text surfaces
nowhere in an output. -/
def strHasSub (s sub : String) : Bool :=
  (List.range (s.length + 1)).any
    (fun i => ((s.toList.drop i).take sub.length) == sub.toList)

/-! ## Concrete instances used by witnesses and counterexamples -/

/-- A manifest with one installed plugin dependency. -/
def c1Pkg : Manifest :=
  [("dependencies", .obj [("@vue/cli-plugin-aaa", .str "^4.0.0")])]

/-- Hook-composition input where the installed plugin's discovery `hooks`
registers after-any-invoke callback `1` and the same plugin's apply-pass
`apply` registers after-any-invoke callback `0`. -/
def c1Input : ComposeInput Nat :=
  { pkg := c1Pkg,
    plugins := [⟨"@vue/cli-plugin-aaa", { afterAnyInvoke := [0] }, none⟩],
    afterInvokeCbs := [],
    afterAnyInvokeCbs := [],
    isPlugin := fun s => strStartsWith s "@vue/cli-plugin-",
    loadHooks := fun _ => some { afterAnyInvoke := [1] } }

/-- A manifest with two installed plugin dependencies. -/
def c2Pkg : Manifest :=
  [("dependencies",
    .obj [("@vue/cli-plugin-aaa", .str "^4.0.0"),
          ("@vue/cli-plugin-bbb", .str "^4.0.0")])]

/-- Hook-composition input where two plugins are installed but only one is in
the explicit invocation list, and both export `hooks`. -/
def c2Input : ComposeInput Nat :=
  { pkg := c2Pkg,
    plugins := [⟨"@vue/cli-plugin-aaa", {}, none⟩],
    afterInvokeCbs := [],
    afterAnyInvokeCbs := [],
    isPlugin := fun s => strStartsWith s "@vue/cli-plugin-",
    loadHooks := fun _ => some {} }

/-- Two manifests with the same key/value set whose two keys are both outside
the canonical priority list, inserted in opposite orders. -/
def c3PkgA : Manifest := [("license", .str "MIT"), ("keywords", .str "cli")]

/-- The other insertion order of `c3PkgA`. -/
def c3PkgB : Manifest := [("keywords", .str "cli"), ("license", .str "MIT")]

/-- Two manifests with the same key/value set whose keys are all on the
canonical priority list, inserted in opposite orders. -/
def c3PkgC : Manifest := [("version", .str "1.0.0"), ("name", .str "x")]

/-- The other insertion order of `c3PkgC`. -/
def c3PkgD : Manifest := [("name", .str "x"), ("version", .str "1.0.0")]

/-- A generator state whose original manifest contains `babel` with the falsy
value `false` while a plugin left a truthy `babel` config in the working
manifest. -/
def c5St : GenState :=
  { pkg := [("babel", .obj [("presets", .arr [.str "@vue/app"])])],
    originalPkg := [("babel", .bool false)],
    files := [] }

/-- A generator state whose original manifest contains `vue` with the falsy
value `0` while the working manifest holds a truthy `vue` config. -/
def c6St : GenState :=
  { pkg := [("vue", .obj [("lintOnSave", .bool true)])],
    originalPkg := [("vue", .num 0)],
    files := [] }

/-- A generator state with an empty working manifest. -/
def c6WSt : GenState :=
  { pkg := [], originalPkg := [], files := [] }

/-- A resolution environment with one import-ledger entry and concrete
injection engines. -/
def c7Env : ResolveEnv :=
  { fileMiddlewares := [],
    imports := [("src/main.js", ["import x from \"x\""])],
    rootOptions := [],
    postProcessFilesCbs := [],
    injectImports := fun _ s l => String.intercalate "\n" l ++ "\n" ++ s,
    injectOptions := fun _ s _ => s }

/-- A one-file tree matching `c7Env`'s ledger. -/
def c7Files : Files := [("src/main.js", "const app = 1")]

/-- A registry with one explicit plugin, an installed version and a concrete
range test. -/
def c8Reg : PluginRegistry :=
  { plugins := ["@vue/cli-plugin-babel"],
    pkg := [],
    isPlugin := fun _ => false,
    installedVersion := fun _ => some "4.5.0",
    rangeTest := fun v r => v == "4.5.0" && r == "^4.0.0" }

/-- A generator state with one transform-registered field absent from the
original manifest. -/
def c9St : GenState :=
  { pkg := [("eslintConfig", .obj [("root", .bool true)])],
    originalPkg := [],
    files := [] }

/-! ## Helper lemmas: association-list lookups -/

theorem lookupKey_setKey_self {α : Type} (m : List (String × α)) (k : String) (v : α) :
    lookupKey (setKey m k v) k = some v := by
  induction m with
  | nil => simp [setKey, lookupKey]
  | cons kv rest ih =>
    by_cases h : kv.1 = k
    · simp [setKey, lookupKey, h]
    · simp [setKey, lookupKey, h, ih]

theorem lookupKey_map_keyed {α β : Type} (m : List (String × α))
    (g : String → α → β) (k : String) :
    lookupKey (m.map (fun kv => (kv.1, g kv.1 kv.2))) k = (lookupKey m k).map (g k) := by
  induction m with
  | nil => simp [lookupKey]
  | cons kv rest ih =>
    by_cases h : kv.1 = k
    · simp [lookupKey, h]
    · simp [lookupKey, h, ih]

theorem removeKey_cons {α : Type} (kv : String × α) (rest : List (String × α)) (k : String) :
    removeKey (kv :: rest) k
      = if kv.1 = k then removeKey rest k else kv :: removeKey rest k := by
  by_cases h : kv.1 = k <;> simp [removeKey, List.filter_cons, h]

theorem lookupKey_removeKey_self {α : Type} (m : List (String × α)) (k : String) :
    lookupKey (removeKey m k) k = none := by
  induction m with
  | nil => simp [removeKey, lookupKey]
  | cons kv rest ih =>
    rw [removeKey_cons]
    by_cases h : kv.1 = k
    · simpa [h] using ih
    · simpa [lookupKey, h] using ih

theorem lookupKey_removeKey_ne {α : Type} (m : List (String × α)) (k k2 : String)
    (h : k2 ≠ k) :
    lookupKey (removeKey m k) k2 = lookupKey m k2 := by
  induction m with
  | nil => simp [removeKey, lookupKey]
  | cons kv rest ih =>
    rw [removeKey_cons]
    by_cases hk : kv.1 = k
    · simpa [lookupKey, hk, Ne.symm h] using ih
    · by_cases hk2 : kv.1 = k2
      · simp [lookupKey, hk, hk2, h]
      · simpa [lookupKey, hk, hk2] using ih

theorem lookupKey_some_mem {α : Type} {m : List (String × α)} {k : String} {v : α}
    (h : lookupKey m k = some v) : (k, v) ∈ m := by
  induction m with
  | nil => simp [lookupKey] at h
  | cons kv rest ih =>
    obtain ⟨a, b⟩ := kv
    by_cases hk : a = k
    · simp [lookupKey, hk] at h
      subst hk
      subst h
      exact List.mem_cons_self _ _
    · simp [lookupKey, hk] at h
      exact List.mem_cons_of_mem _ (ih h)

theorem mem_keys_of_lookup_some {α : Type} {m : List (String × α)} {k : String} {v : α}
    (h : lookupKey m k = some v) : k ∈ m.map Prod.fst := by
  exact List.mem_map.mpr ⟨(k, v), lookupKey_some_mem h, rfl⟩

theorem lookupKey_of_mem_nodup {α : Type} {m : List (String × α)} {k : String} {v : α}
    (hnd : (m.map Prod.fst).Nodup) (h : (k, v) ∈ m) : lookupKey m k = some v := by
  induction m with
  | nil => simp at h
  | cons kv rest ih =>
    simp only [List.map_cons, List.nodup_cons] at hnd
    rcases List.mem_cons.mp h with h1 | h1
    · simp [lookupKey, ← h1]
    · by_cases hk : kv.1 = k
      · exfalso
        exact hnd.1 (hk ▸ List.mem_map.mpr ⟨(k, v), h1, rfl⟩)
      · simp [lookupKey, hk]
        exact ih hnd.2 h1

theorem lookupKey_eq_of_perm {α : Type} {m1 m2 : List (String × α)}
    (hperm : m1.Perm m2) (hnd : (m1.map Prod.fst).Nodup) (k : String) :
    lookupKey m1 k = lookupKey m2 k := by
  have hnd2 : (m2.map Prod.fst).Nodup := ((hperm.map Prod.fst).nodup_iff).mp hnd
  cases h1 : lookupKey m1 k with
  | some v =>
    exact (lookupKey_of_mem_nodup hnd2 (hperm.mem_iff.mp (lookupKey_some_mem h1))).symm
  | none =>
    cases h2 : lookupKey m2 k with
    | some v =>
      have := lookupKey_of_mem_nodup hnd (hperm.mem_iff.mpr (lookupKey_some_mem h2))
      rw [h1] at this
      exact this.symm ▸ rfl
    | none => rfl

theorem filterMap_congr_mem {α β : Type} (l : List α) (f g : α → Option β)
    (h : ∀ x ∈ l, f x = g x) : l.filterMap f = l.filterMap g := by
  induction l with
  | nil => rfl
  | cons x xs ih =>
    simp only [List.filterMap_cons, h x (List.mem_cons_self x xs)]
    rw [ih (fun y hy => h y (List.mem_cons_of_mem x hy))]

/-! ## Helper lemmas: config extraction -/

theorem extractOne_originalPkg (tr : String → Option ConfigTransform) (c : Bool)
    (k : String) (st : GenState) :
    (extractOne tr c k st).originalPkg = st.originalPkg := by
  unfold extractOne
  cases tr k with
  | none => rfl
  | some ct =>
    cases lookupKey st.pkg k with
    | none => rfl
    | some v =>
      dsimp only
      split <;> rfl

theorem extractOne_files_guard_false (tr : String → Option ConfigTransform) (c : Bool)
    (k : String) (st : GenState) (h : extractGuard tr k st = false) :
    extractOne tr c k st = st := by
  unfold extractGuard at h
  unfold extractOne
  cases htr : tr k with
  | none => rfl
  | some ct =>
    cases hl : lookupKey st.pkg k with
    | none => rfl
    | some v =>
      dsimp only
      rw [htr] at h
      have hb : truthyAt st.pkg k = truthy v := by
        unfold truthyAt
        rw [hl]
      rw [hb] at h
      simp only [Option.isSome_some, Bool.true_and] at h
      rw [if_neg]
      intro hc
      rw [hc] at h
      exact Bool.noConfusion h

theorem extractOne_pkg_guard_true (tr : String → Option ConfigTransform) (c : Bool)
    (k : String) (st : GenState) (h : extractGuard tr k st = true) :
    (extractOne tr c k st).pkg = removeKey st.pkg k := by
  unfold extractGuard at h
  unfold extractOne
  cases htr : tr k with
  | none =>
    rw [htr] at h
    simp at h
  | some ct =>
    cases hl : lookupKey st.pkg k with
    | none =>
      unfold truthyAt at h
      rw [hl] at h
      simp at h
    | some v =>
      dsimp only
      rw [htr] at h
      have hb : truthyAt st.pkg k = truthy v := by
        unfold truthyAt
        rw [hl]
      rw [hb] at h
      simp only [Option.isSome_some, Bool.true_and] at h
      rw [if_pos h]

theorem extractOne_lookup_ne (tr : String → Option ConfigTransform) (c : Bool)
    (k k2 : String) (st : GenState) (h : k2 ≠ k) :
    lookupKey (extractOne tr c k st).pkg k2 = lookupKey st.pkg k2 := by
  unfold extractOne
  cases tr k with
  | none => rfl
  | some ct =>
    cases lookupKey st.pkg k with
    | none => rfl
    | some v =>
      dsimp only
      split
      · exact lookupKey_removeKey_ne st.pkg k k2 h
      · rfl

theorem extractGuard_false_of_lookup_none (tr : String → Option ConfigTransform)
    (k : String) (st : GenState) (h : lookupKey st.pkg k = none) :
    extractGuard tr k st = false := by
  unfold extractGuard truthyAt
  rw [h]
  simp

theorem extractOne_cases (tr : String → Option ConfigTransform) (c : Bool)
    (k : String) (st : GenState) :
    extractOne tr c k st = st ∨ lookupKey (extractOne tr c k st).pkg k = none := by
  cases hg : extractGuard tr k st with
  | false => exact Or.inl (extractOne_files_guard_false tr c k st hg)
  | true =>
    right
    rw [extractOne_pkg_guard_true tr c k st hg]
    exact lookupKey_removeKey_self st.pkg k

theorem extractFold_nil (tr : String → Option ConfigTransform) (c : Bool) (st : GenState) :
    extractFold tr c [] st = st := rfl

theorem extractFold_cons (tr : String → Option ConfigTransform) (c : Bool)
    (k : String) (keys : List String) (st : GenState) :
    extractFold tr c (k :: keys) st = extractFold tr c keys (extractOne tr c k st) := rfl

theorem extractFold_singleton (tr : String → Option ConfigTransform) (c : Bool)
    (k : String) (st : GenState) :
    extractFold tr c [k] st = extractOne tr c k st := rfl

theorem extractFold_originalPkg (tr : String → Option ConfigTransform) (c : Bool)
    (keys : List String) (st : GenState) :
    (extractFold tr c keys st).originalPkg = st.originalPkg := by
  induction keys generalizing st with
  | nil => rfl
  | cons k keys ih =>
    rw [extractFold_cons, ih, extractOne_originalPkg]

theorem extractFold_lookup_none (tr : String → Option ConfigTransform) (c : Bool)
    (keys : List String) (st : GenState) (k : String)
    (h : lookupKey st.pkg k = none) :
    lookupKey (extractFold tr c keys st).pkg k = none := by
  induction keys generalizing st with
  | nil => exact h
  | cons k2 keys ih =>
    rw [extractFold_cons]
    by_cases hk : k2 = k
    · subst hk
      rw [extractOne_files_guard_false tr c k2 st (extractGuard_false_of_lookup_none tr k2 st h)]
      exact ih st h
    · refine ih _ ?_
      rw [extractOne_lookup_ne tr c k2 k st (fun hc => hk hc.symm)]
      exact h

theorem extractFold_truthy_false (tr : String → Option ConfigTransform) (c : Bool)
    (keys : List String) (st : GenState) (k : String)
    (h : truthyAt st.pkg k = false) :
    truthyAt (extractFold tr c keys st).pkg k = false := by
  induction keys generalizing st with
  | nil => exact h
  | cons k2 keys ih =>
    rw [extractFold_cons]
    by_cases hk : k2 = k
    · subst hk
      have hg : extractGuard tr k2 st = false := by
        unfold extractGuard
        rw [h]
        simp
      rw [extractOne_files_guard_false tr c k2 st hg]
      exact ih st h
    · refine ih _ ?_
      unfold truthyAt
      rw [extractOne_lookup_ne tr c k2 k st (fun hc => hk hc.symm)]
      exact h

theorem extractFold_guard_false (tr : String → Option ConfigTransform) (c : Bool)
    (keys : List String) (st : GenState) (k : String)
    (h : extractGuard tr k st = false) :
    extractGuard tr k (extractFold tr c keys st) = false := by
  unfold extractGuard at h ⊢
  rw [extractFold_originalPkg]
  cases ha : (tr k).isSome with
  | false => simp [ha]
  | true =>
    rw [ha] at h
    simp only [Bool.true_and] at h ⊢
    cases hb : truthyAt st.pkg k with
    | false =>
      rw [extractFold_truthy_false tr c keys st k hb]
      simp
    | true =>
      rw [hb] at h
      simp only [Bool.true_and] at h
      cases hc : truthyAt (extractFold tr c keys st).pkg k with
      | false => simp
      | true => simp [h]

theorem extractFold_survivor (tr : String → Option ConfigTransform) (c : Bool)
    (keys : List String) (st : GenState) (k : String) (hmem : k ∈ keys) :
    lookupKey (extractFold tr c keys st).pkg k = none
      ∨ extractGuard tr k (extractFold tr c keys st) = false := by
  induction keys generalizing st with
  | nil => simp at hmem
  | cons k2 keys ih =>
    rw [extractFold_cons]
    by_cases hk : k = k2
    · subst hk
      cases hg : extractGuard tr k st with
      | false =>
        right
        rw [extractOne_files_guard_false tr c k st hg]
        exact extractFold_guard_false tr c keys st k hg
      | true =>
        left
        refine extractFold_lookup_none tr c keys _ k ?_
        rw [extractOne_pkg_guard_true tr c k st hg]
        exact lookupKey_removeKey_self st.pkg k
    · have : k ∈ keys := by
        cases List.mem_cons.mp hmem with
        | inl h => exact absurd h hk
        | inr h => exact h
      exact ih _ this

theorem mem_keys_removeKey {α : Type} {m : List (String × α)} {k k2 : String}
    (h : k2 ∈ (removeKey m k).map Prod.fst) : k2 ∈ m.map Prod.fst := by
  obtain ⟨kv, hkv, hfst⟩ := List.mem_map.mp h
  exact List.mem_map.mpr ⟨kv, List.mem_of_mem_filter hkv, hfst⟩

theorem mem_keys_extractOne (tr : String → Option ConfigTransform) (c : Bool)
    (k k2 : String) (st : GenState)
    (h : k2 ∈ (extractOne tr c k st).pkg.map Prod.fst) : k2 ∈ st.pkg.map Prod.fst := by
  revert h
  unfold extractOne
  cases tr k with
  | none => exact id
  | some ct =>
    cases lookupKey st.pkg k with
    | none => exact id
    | some v =>
      dsimp only
      split
      · exact fun h => mem_keys_removeKey h
      · exact id

theorem mem_keys_extractFold (tr : String → Option ConfigTransform) (c : Bool)
    (keys : List String) (st : GenState) (k : String)
    (h : k ∈ (extractFold tr c keys st).pkg.map Prod.fst) : k ∈ st.pkg.map Prod.fst := by
  induction keys generalizing st with
  | nil => exact h
  | cons k2 keys ih =>
    rw [extractFold_cons] at h
    exact mem_keys_extractOne tr c k2 k st (ih _ h)

theorem extractFold_noop (tr : String → Option ConfigTransform) (c : Bool)
    (keys : List String) (st : GenState)
    (h : ∀ k ∈ keys, lookupKey st.pkg k = none ∨ extractGuard tr k st = false) :
    extractFold tr c keys st = st := by
  induction keys with
  | nil => rfl
  | cons k keys ih =>
    have hg : extractGuard tr k st = false := by
      cases h k (List.mem_cons_self k keys) with
      | inl hl => exact extractGuard_false_of_lookup_none tr k st hl
      | inr hr => exact hr
    rw [extractFold_cons, extractOne_files_guard_false tr c k st hg]
    exact ih (fun k2 hk2 => h k2 (List.mem_cons_of_mem k hk2))

theorem extractFold_extracts (tr : String → Option ConfigTransform) (c : Bool)
    (k : String) (htr : (tr k).isSome = true) :
    ∀ (keys : List String) (st : GenState), k ∈ keys → truthyAt st.pkg k = true →
      truthyAt st.originalPkg k = false →
      lookupKey (extractFold tr c keys st).pkg k = none := by
  intro keys
  induction keys with
  | nil =>
    intro st hmem _ _
    simp at hmem
  | cons k2 keys ih =>
    intro st hmem hpkg horig
    rw [extractFold_cons]
    by_cases hk : k = k2
    · subst hk
      have hg : extractGuard tr k st = true := by
        unfold extractGuard
        rw [htr, hpkg, horig]
        rfl
      refine extractFold_lookup_none tr c keys _ k ?_
      rw [extractOne_pkg_guard_true tr c k st hg]
      exact lookupKey_removeKey_self st.pkg k
    · have hmem2 : k ∈ keys := by
        cases List.mem_cons.mp hmem with
        | inl h => exact absurd h hk
        | inr h => exact h
      refine ih _ hmem2 ?_ ?_
      · unfold truthyAt
        rw [extractOne_lookup_ne tr c k2 k st hk]
        exact hpkg
      · rw [extractOne_originalPkg]
        exact horig

theorem extractOne_idem (tr : String → Option ConfigTransform) (c : Bool)
    (k : String) (st : GenState) :
    extractOne tr c k (extractOne tr c k st) = extractOne tr c k st := by
  cases extractOne_cases tr c k st with
  | inl h => rw [h, h]
  | inr h =>
    exact extractOne_files_guard_false tr c k _
      (extractGuard_false_of_lookup_none tr k _ h)

theorem extractConfigFiles_idem (tr : String → Option ConfigTransform)
    (t a c : Bool) (st : GenState) :
    extractConfigFiles tr t a c (extractConfigFiles tr t a c st)
      = extractConfigFiles tr t a c st := by
  cases a with
  | true =>
    show extractFold tr c ((extractFold tr c (st.pkg.map Prod.fst) st).pkg.map Prod.fst) _ = _
    refine extractFold_noop tr c _ _ ?_
    intro k hk
    exact extractFold_survivor tr c (st.pkg.map Prod.fst) st k
      (mem_keys_extractFold tr c (st.pkg.map Prod.fst) st k hk)
  | false =>
    cases t with
    | true =>
      show extractOne tr c "babel" (extractOne tr c "babel" st) = extractOne tr c "babel" st
      exact extractOne_idem tr c "babel" st
    | false =>
      show extractOne tr c "babel" (extractOne tr c "vue"
            (extractOne tr c "babel" (extractOne tr c "vue" st)))
          = extractOne tr c "babel" (extractOne tr c "vue" st)
      have hvb : ("vue" : String) ≠ "babel" := by decide
      have stepA :
          extractOne tr c "vue" (extractOne tr c "babel" (extractOne tr c "vue" st))
            = extractOne tr c "babel" (extractOne tr c "vue" st) := by
        cases hgv : extractGuard tr "vue" st with
        | false =>
          have hv : extractOne tr c "vue" st = st :=
            extractOne_files_guard_false tr c "vue" st hgv
          rw [hv]
          have h1 := extractFold_guard_false tr c ["babel"] st "vue" hgv
          rw [extractFold_singleton] at h1
          exact extractOne_files_guard_false tr c "vue" _ h1
        | true =>
          have hnone : lookupKey (extractOne tr c "vue" st).pkg "vue" = none := by
            rw [extractOne_pkg_guard_true tr c "vue" st hgv]
            exact lookupKey_removeKey_self st.pkg "vue"
          have hnone2 :
              lookupKey (extractOne tr c "babel" (extractOne tr c "vue" st)).pkg "vue"
                = none := by
            rw [extractOne_lookup_ne tr c "babel" "vue" _ hvb]
            exact hnone
          exact extractOne_files_guard_false tr c "vue" _
            (extractGuard_false_of_lookup_none tr "vue" _ hnone2)
      rw [stepA]
      exact extractOne_idem tr c "babel" (extractOne tr c "vue" st)

/-! ## Helper lemmas: manifest sorting -/

theorem lookupKey_mapValueAt (m : Manifest) (key : String) (f : Value → Value) (k : String) :
    lookupKey (mapValueAt key f m) k
      = if key = k then (lookupKey m k).map f else lookupKey m k := by
  induction m with
  | nil => simp [mapValueAt, lookupKey]
  | cons kv rest ih =>
    simp only [mapValueAt] at ih ⊢
    by_cases h3 : key = k
    · subst h3
      simp only [if_pos rfl, beq_iff_eq] at ih
      by_cases h1 : kv.1 = key
      · simp [lookupKey, h1]
      · simp [lookupKey, h1, ih]
    · simp only [if_neg h3, beq_iff_eq] at ih
      by_cases h1 : kv.1 = key
      · have h2 : kv.1 ≠ k := by
          rw [h1]
          exact h3
        simp [lookupKey, h1, h2, h3, ih]
      · simp [lookupKey, h1, h3, ih]

theorem filter_mapValueAt_not_contains (keyOrder : List String) (key : String)
    (hkey : key ∈ keyOrder) (f : Value → Value) (m : Manifest) :
    (mapValueAt key f m).filter (fun kv => !(keyOrder.contains kv.1))
      = m.filter (fun kv => !(keyOrder.contains kv.1)) := by
  induction m with
  | nil => rfl
  | cons kv rest ih =>
    by_cases h1 : kv.1 = key
    · simp [mapValueAt, List.filter_cons, h1, hkey] at ih ⊢
      exact ih
    · simp [mapValueAt, List.filter_cons, h1] at ih ⊢
      rw [ih]

theorem sortPkg_congr (p1 p2 : Manifest)
    (hlook : ∀ k, lookupKey p1 k = lookupKey p2 k)
    (hrest : p1.filter (fun kv => !(pkgKeyOrder.contains kv.1))
      = p2.filter (fun kv => !(pkgKeyOrder.contains kv.1))) :
    sortPkg p1 = sortPkg p2 := by
  have c1 : "dependencies" ∈ pkgKeyOrder := by decide
  have c2 : "devDependencies" ∈ pkgKeyOrder := by decide
  have c3 : "scripts" ∈ pkgKeyOrder := by decide
  have hlookT : ∀ k,
      lookupKey (mapValueAt "scripts" sortScriptsValue
        (mapValueAt "devDependencies" sortDepsValue
          (mapValueAt "dependencies" sortDepsValue p1))) k
      = lookupKey (mapValueAt "scripts" sortScriptsValue
        (mapValueAt "devDependencies" sortDepsValue
          (mapValueAt "dependencies" sortDepsValue p2))) k := by
    intro k
    simp only [lookupKey_mapValueAt]
    rw [hlook k]
  have hrestT :
      (mapValueAt "scripts" sortScriptsValue
        (mapValueAt "devDependencies" sortDepsValue
          (mapValueAt "dependencies" sortDepsValue p1))).filter
            (fun kv => !(pkgKeyOrder.contains kv.1))
      = (mapValueAt "scripts" sortScriptsValue
        (mapValueAt "devDependencies" sortDepsValue
          (mapValueAt "dependencies" sortDepsValue p2))).filter
            (fun kv => !(pkgKeyOrder.contains kv.1)) := by
    simp only [filter_mapValueAt_not_contains pkgKeyOrder "scripts" c3,
      filter_mapValueAt_not_contains pkgKeyOrder "devDependencies" c2,
      filter_mapValueAt_not_contains pkgKeyOrder "dependencies" c1]
    exact hrest
  unfold sortPkg sortByPriority
  rw [filterMap_congr_mem pkgKeyOrder _ _ (fun k _ => by rw [hlookT k]), hrestT]

/-! ## Helper lemmas: hook composition -/

theorem hookAnyStep_none {Cb : Type} {lh : String → Option (HookRegs Cb)} {id : String}
    (h : lh id = none) (acc : List Cb) : hookAnyStep lh acc id = acc := by
  unfold hookAnyStep
  rw [h]

theorem hookAnyStep_some {Cb : Type} {lh : String → Option (HookRegs Cb)} {id : String}
    {r : HookRegs Cb} (h : lh id = some r) (acc : List Cb) :
    hookAnyStep lh acc id = acc ++ r.afterAnyInvoke := by
  unfold hookAnyStep
  rw [h]

theorem discoveryStep_none {Cb : Type} {lh : String → Option (HookRegs Cb)} {id : String}
    (h : lh id = none) (s : HookState Cb) : discoveryStep lh s id = s := by
  unfold discoveryStep
  rw [h]

theorem discoveryStep_some {Cb : Type} {lh : String → Option (HookRegs Cb)} {id : String}
    {r : HookRegs Cb} (h : lh id = some r) (s : HookState Cb) :
    discoveryStep lh s id = applyRegsToState s r := by
  unfold discoveryStep
  rw [h]

theorem hookAnyFold_acc {Cb : Type} (lh : String → Option (HookRegs Cb))
    (ids : List String) :
    ∀ acc : List Cb,
      ids.foldl (hookAnyStep lh) acc = acc ++ ids.foldl (hookAnyStep lh) [] := by
  induction ids with
  | nil =>
    intro acc
    simp
  | cons id rest ih =>
    intro acc
    simp only [List.foldl_cons]
    cases h : lh id with
    | none =>
      rw [hookAnyStep_none h acc, hookAnyStep_none h []]
      exact ih acc
    | some r =>
      rw [hookAnyStep_some h acc, hookAnyStep_some h [], List.nil_append,
        ih (acc ++ r.afterAnyInvoke), ih r.afterAnyInvoke, List.append_assoc]

theorem discoveryFold_anyCbs {Cb : Type} (lh : String → Option (HookRegs Cb))
    (ids : List String) :
    ∀ s : HookState Cb,
      (ids.foldl (discoveryStep lh) s).afterAnyInvokeCbs
        = s.afterAnyInvokeCbs ++ ids.foldl (hookAnyStep lh) [] := by
  induction ids with
  | nil =>
    intro s
    simp
  | cons id rest ih =>
    intro s
    simp only [List.foldl_cons]
    cases h : lh id with
    | none =>
      rw [discoveryStep_none h s, hookAnyStep_none h []]
      exact ih s
    | some r =>
      rw [discoveryStep_some h s, hookAnyStep_some h [], List.nil_append,
        ih (applyRegsToState s r), hookAnyFold_acc lh rest r.afterAnyInvoke]
      simp [applyRegsToState, List.append_assoc]

theorem composeHooks_anyCbs {Cb : Type} (inp : ComposeInput Cb) :
    (composeHooks inp).afterAnyInvokeCbs = inp.afterAnyInvokeCbs ++ hookAnyList inp := by
  exact discoveryFold_anyCbs inp.loadHooks (allPlugins inp.pkg inp.isPlugin)
    ⟨[], inp.afterAnyInvokeCbs, []⟩

theorem discoveryHookCalls_shape {Cb : Type} (inp : ComposeInput Cb) :
    ∀ call ∈ discoveryHookCalls inp, call.2 = inp.plugins.map InvokedPlugin.id := by
  intro call hc
  obtain ⟨id, _, hmap⟩ := List.mem_filterMap.mp hc
  cases h : inp.loadHooks id with
  | none =>
    rw [h] at hmap
    simp at hmap
  | some r =>
    rw [h] at hmap
    have h2 : (id, inp.plugins.map InvokedPlugin.id) = call := Option.some.inj hmap
    rw [← h2]

theorem filterMapCalls_ids {Cb : Type} (lh : String → Option (HookRegs Cb))
    (ids : List String) (ps : List String) :
    (ids.filterMap (fun id => (lh id).map (fun _ => (id, ps)))).map Prod.fst
      = ids.filter (fun id => (lh id).isSome) := by
  induction ids with
  | nil => rfl
  | cons id rest ih =>
    simp only [List.filterMap_cons, List.filter_cons]
    cases h : lh id with
    | none => simpa [h] using ih
    | some r => simpa [h] using ih

theorem discoveryHookCalls_ids {Cb : Type} (inp : ComposeInput Cb) :
    (discoveryHookCalls inp).map Prod.fst
      = (allPlugins inp.pkg inp.isPlugin).filter (fun id => (inp.loadHooks id).isSome) :=
  filterMapCalls_ids inp.loadHooks (allPlugins inp.pkg inp.isPlugin)
    (inp.plugins.map InvokedPlugin.id)

theorem extractOne_extracts (tr : String → Option ConfigTransform) (c : Bool)
    (k : String) (st : GenState) (htr : (tr k).isSome = true)
    (hpkg : truthyAt st.pkg k = true) (horig : truthyAt st.originalPkg k = false) :
    lookupKey (extractOne tr c k st).pkg k = none := by
  have hg : extractGuard tr k st = true := by
    unfold extractGuard
    rw [htr, hpkg, horig]
    rfl
  rw [extractOne_pkg_guard_true tr c k st hg]
  exact lookupKey_removeKey_self st.pkg k

theorem truthyAt_extractOne_ne (tr : String → Option ConfigTransform) (c : Bool)
    (k k2 : String) (st : GenState) (h : k2 ≠ k) :
    truthyAt (extractOne tr c k st).pkg k2 = truthyAt st.pkg k2 := by
  unfold truthyAt
  rw [extractOne_lookup_ne tr c k k2 st h]

/-! ## Claim theorems -/

/-- C1 (counterexample): with one installed plugin whose discovery-pass
`hooks` registers after-any-invoke callback `1` and whose apply-pass `apply`
registers after-any-invoke callback `0`, the generator's final
after-any-invoke list is `[1]`: it is not the union of apply-pass and
discovery-pass registrations, and the apply-pass callback `0` is lost. -/
theorem composeHooks_apply_pass_anyCbs_lost :
    (composeHooks c1Input).afterAnyInvokeCbs = [1]
    ∧ applyAnyList c1Input.plugins = [0]
    ∧ (0 : Nat) ∉ (composeHooks c1Input).afterAnyInvokeCbs := by
  refine ⟨rfl, rfl, ?_⟩
  decide

/-- C1 (amended): after the apply pass, the generator's after-any-invoke
list is exactly the list saved from the discovery pass — the caller-supplied
seed followed by the discovery-pass registrations in installed-plugin order —
and it is independent of the explicit plugin list: after-any-invoke
callbacks registered during the apply pass are discarded by the final
assignment at line 143, not merged. -/
theorem composeHooks_restores_discovery_anyCbs {Cb : Type} (inp : ComposeInput Cb) :
    (composeHooks inp).afterAnyInvokeCbs = inp.afterAnyInvokeCbs ++ hookAnyList inp
    ∧ ∀ ps : List (InvokedPlugin Cb),
        (composeHooks { inp with plugins := ps }).afterAnyInvokeCbs
          = (composeHooks inp).afterAnyInvokeCbs := by
  refine ⟨composeHooks_anyCbs inp, fun ps => ?_⟩
  rw [composeHooks_anyCbs, composeHooks_anyCbs]
  rfl

/-- C2 (counterexample): with plugins `aaa` and `bbb` both installed but only
`aaa` in the explicit invocation list, plugin `bbb`'s discovery-pass `hooks`
is invoked with `["@vue/cli-plugin-aaa"]` — the explicit invocation list's
ids — which differs from the installed set. -/
theorem discoveryHooks_not_given_installed_set :
    ("@vue/cli-plugin-bbb", ["@vue/cli-plugin-aaa"]) ∈ discoveryHookCalls c2Input
    ∧ allPlugins c2Input.pkg c2Input.isPlugin
        = ["@vue/cli-plugin-aaa", "@vue/cli-plugin-bbb"]
    ∧ ["@vue/cli-plugin-aaa"] ≠ allPlugins c2Input.pkg c2Input.isPlugin := by
  refine ⟨by decide, rfl, by decide⟩

/-- C2 (amended): during the discovery pass every installed plugin whose
generator module exports `hooks` is invoked exactly once, and the plugin-id
list passed to it is the ordered id list of the explicit invocation list
(the `plugins` constructor argument, line 101), not the installed set. -/
theorem discoveryHooks_receive_invoked_ids {Cb : Type} (inp : ComposeInput Cb) :
    (∀ call ∈ discoveryHookCalls inp, call.2 = inp.plugins.map InvokedPlugin.id)
    ∧ (discoveryHookCalls inp).map Prod.fst
        = (allPlugins inp.pkg inp.isPlugin).filter (fun id => (inp.loadHooks id).isSome) :=
  ⟨discoveryHookCalls_shape inp, discoveryHookCalls_ids inp⟩

/-- C2 (witness): the theorem applied to the concrete input `c2Input` and its
first discovery call. -/
theorem discoveryHooks_receive_invoked_ids_witness :
    ("@vue/cli-plugin-aaa", ["@vue/cli-plugin-aaa"]) ∈ discoveryHookCalls c2Input
    ∧ (("@vue/cli-plugin-aaa", ["@vue/cli-plugin-aaa"]) : String × List String).2
        = c2Input.plugins.map InvokedPlugin.id :=
  ⟨by decide, (discoveryHooks_receive_invoked_ids c2Input).1 _ (by decide)⟩

/-- C3 (counterexample): two manifests holding the same key/value set
`license ↦ "MIT", keywords ↦ "cli"` in opposite insertion orders — both keys
are outside the canonical priority list — serialize to different bytes after
sorting: sorting is not a pure function of the key/value contents alone. -/
theorem sortPkg_insertion_order_sensitive :
    c3PkgA.Perm c3PkgB
    ∧ stringifyJson (.obj (sortPkg c3PkgA)) ++ "\n"
        ≠ stringifyJson (.obj (sortPkg c3PkgB)) ++ "\n" := by
  constructor
  · exact List.Perm.swap _ _ _
  · decide

/-- C3 (amended): sorting followed by serialization is insertion-order
independent on the priority-listed part of the manifest: two manifests that
are permutations of each other (with duplicate-free keys, as JavaScript
objects guarantee) and that list their non-priority top-level keys in the
same relative order produce byte-identical serialized output.  Full
insertion-order independence fails because unlisted keys trail in original
order. -/
theorem sortPkg_deterministic (p1 p2 : Manifest) (hperm : p1.Perm p2)
    (hnd : (p1.map Prod.fst).Nodup)
    (hrest : p1.filter (fun kv => !(pkgKeyOrder.contains kv.1))
      = p2.filter (fun kv => !(pkgKeyOrder.contains kv.1))) :
    stringifyJson (.obj (sortPkg p1)) ++ "\n"
      = stringifyJson (.obj (sortPkg p2)) ++ "\n" := by
  rw [sortPkg_congr p1 p2 (lookupKey_eq_of_perm hperm hnd) hrest]

/-- C3 (witness): the amended determinism applied to `name`/`version`
manifests inserted in opposite orders. -/
theorem sortPkg_deterministic_witness :
    c3PkgC.Perm c3PkgD
    ∧ (c3PkgC.map Prod.fst).Nodup
    ∧ stringifyJson (.obj (sortPkg c3PkgC)) ++ "\n"
        = stringifyJson (.obj (sortPkg c3PkgD)) ++ "\n" :=
  ⟨List.Perm.swap _ _ _, by decide,
    sortPkg_deterministic c3PkgC c3PkgD (List.Perm.swap _ _ _) (by decide) rfl⟩

/-- C4 (counterexample): flushing the queue `[{id := "@vue/cli-plugin-foo",
msg := "hello", type := "blah"}]` emits only the invalid-type error (tagged
with the short id `foo`) and the closing blank line; the queued message text
`hello` appears in no emitted action — it is dropped, contrary to the claim
that it still surfaces through the error channel. -/
theorem printExitLogs_drops_queued_message :
    printExitLogs [⟨"@vue/cli-plugin-foo", "hello", "blah"⟩]
      = [("error", "Invalid api.exitLog type \x27blah\x27.", "foo"), ("log", "", "")]
    ∧ ∀ a ∈ printExitLogs [⟨"@vue/cli-plugin-foo", "hello", "blah"⟩],
        strHasSub a.2.1 "hello" = false ∧ strHasSub a.2.2 "hello" = false := by
  refine ⟨rfl, ?_⟩
  decide

/-- C4 (amended): an exit-log entry with an unrecognized severity tag is
reported through the error channel with a message naming the invalid type,
tagged with the originating plugin's short id; the entry's own queued
message text is dropped (it is not part of the emitted action), and flushing
is total by construction — it never throws. -/
theorem printExitLogs_unrecognized_reports_error (logs : List ExitLog) (e : ExitLog)
    (hmem : e ∈ logs) (htype : logTypeOf e.type = none) :
    ("error", "Invalid api.exitLog type \x27" ++ e.type ++ "\x27.", toShortPluginId e.id)
      ∈ printExitLogs logs := by
  unfold printExitLogs
  rw [if_neg (by
    intro hempty
    rw [List.isEmpty_iff] at hempty
    rw [hempty] at hmem
    simp at hmem)]
  refine List.mem_append_left _ ?_
  refine List.mem_map.mpr ⟨e, hmem, ?_⟩
  rw [htype]

/-- C4 (witness): the amended theorem applied to a concrete queue with the
unrecognized severity `blah`. -/
theorem printExitLogs_unrecognized_reports_error_witness :
    logTypeOf "blah" = none
    ∧ ("error", "Invalid api.exitLog type \x27blah\x27.", "foo")
        ∈ printExitLogs [⟨"@vue/cli-plugin-foo", "msg", "blah"⟩] :=
  ⟨rfl, printExitLogs_unrecognized_reports_error
    [⟨"@vue/cli-plugin-foo", "msg", "blah"⟩] ⟨"@vue/cli-plugin-foo", "msg", "blah"⟩
    (List.mem_cons_self _ _) rfl⟩

/-- C5 (code-bug evidence): the original manifest contains `babel` (with the
falsy value `false`), the working manifest holds a truthy `babel` config, yet
default-mode extraction removes `babel` from the working manifest — the
source's `!this.originalPkg[key]` truthiness test contradicts its own comment
"do not extract if the field exists in original package.json" for
falsy-but-present original values. -/
theorem extract_removes_falsy_original_babel :
    lookupKey c5St.originalPkg "babel" = some (.bool false)
    ∧ lookupKey c5St.pkg "babel" = some (.obj [("presets", .arr [.str "@vue/app"])])
    ∧ lookupKey (extractConfigFiles (mergedTransforms []) false false false c5St).pkg
        "babel" = none :=
  ⟨rfl, rfl, rfl⟩

/-- C6 (counterexample): `vue` is present in the original manifest (with the
falsy value `0`), yet extraction of `vue` is not a no-op — it removes the
key from the working manifest, so "no-op when the field was in the original
manifest" fails as stated. -/
theorem extract_not_noop_on_falsy_original :
    (lookupKey c6St.originalPkg "vue").isSome = true
    ∧ lookupKey c6St.pkg "vue" = some (.obj [("lintOnSave", .bool true)])
    ∧ lookupKey (extractOne (mergedTransforms []) false "vue" c6St).pkg "vue" = none
    ∧ extractOne (mergedTransforms []) false "vue" c6St ≠ c6St := by
  refine ⟨rfl, rfl, rfl, ?_⟩
  intro h
  have h2 : lookupKey (extractOne (mergedTransforms []) false "vue" c6St).pkg "vue"
      = lookupKey c6St.pkg "vue" := by rw [h]
  rw [show lookupKey (extractOne (mergedTransforms []) false "vue" c6St).pkg "vue"
        = none from rfl,
      show lookupKey c6St.pkg "vue" = some (.obj [("lintOnSave", .bool true)]) from rfl]
    at h2
  exact Option.noConfusion h2

/-- C6 (amended): running `extractConfigFiles` twice with the same arguments
leaves the whole generator state unchanged by the second run (idempotence);
and the single-field extraction step is a silent no-op — it never errors and
changes nothing — whenever the field is absent from the working manifest, is
present in the original manifest with a truthy value, or has no registered
transform.  (A field present in the original manifest with a falsy value is
not protected; see the counterexample.) -/
theorem extractConfigFiles_idem_and_noop :
    (∀ (tr : String → Option ConfigTransform) (t a c : Bool) (st : GenState),
      extractConfigFiles tr t a c (extractConfigFiles tr t a c st)
        = extractConfigFiles tr t a c st)
    ∧ (∀ (tr : String → Option ConfigTransform) (c : Bool) (k : String) (st : GenState),
        lookupKey st.pkg k = none ∨ truthyAt st.originalPkg k = true ∨ tr k = none →
        extractOne tr c k st = st) := by
  refine ⟨extractConfigFiles_idem, ?_⟩
  intro tr c k st h
  refine extractOne_files_guard_false tr c k st ?_
  unfold extractGuard
  rcases h with h | h | h
  · unfold truthyAt
    rw [h]
    simp
  · rw [h]
    simp
  · rw [h]
    simp

/-- C6 (witness): the no-op part applied to an empty working manifest, and
the idempotence part applied to the concrete state `c5St`. -/
theorem extractConfigFiles_idem_and_noop_witness :
    lookupKey c6WSt.pkg "babel" = none
    ∧ extractOne (mergedTransforms []) false "babel" c6WSt = c6WSt
    ∧ extractConfigFiles (mergedTransforms []) false false false
        (extractConfigFiles (mergedTransforms []) false false false c5St)
      = extractConfigFiles (mergedTransforms []) false false false c5St :=
  ⟨rfl,
    extractConfigFiles_idem_and_noop.2 (mergedTransforms []) false "babel" c6WSt
      (Or.inl rfl),
    extractConfigFiles_idem_and_noop.1 (mergedTransforms []) false false false c5St⟩

/-- C7: file resolution is the strict four-stage composition — middlewares in
registration order, then path normalization, then per-path injection, then
post-process callbacks in registration order — and in the injection stage a
path whose tree content is `c` after stage 2 gets `injectFileContent`:
imports engine first (only when its ledger entries are non-empty), then the
options engine (only when its entries are non-empty), each invoked once with
the recorded entry list; a path with no ledger entries is left untouched. -/
theorem resolveFiles_stages (env : ResolveEnv) (files : Files) (path c : String)
    (h : lookupKey (normalizeFilePaths (middlewarePass env.fileMiddlewares files)) path
      = some c) :
    resolveFiles env files
      = postProcessPass env.postProcessFilesCbs
          (injectionPass env (normalizeFilePaths (middlewarePass env.fileMiddlewares files)))
    ∧ lookupKey
        (injectionPass env (normalizeFilePaths (middlewarePass env.fileMiddlewares files)))
        path = some (injectFileContent env path c)
    ∧ (lookupLedger env.imports path = [] → lookupLedger env.rootOptions path = [] →
        injectFileContent env path c = c)
    ∧ (∀ li lo, lookupLedger env.imports path = li → lookupLedger env.rootOptions path = lo →
        li ≠ [] → lo ≠ [] →
        injectFileContent env path c
          = env.injectOptions path (env.injectImports path c li) lo) := by
  refine ⟨rfl, ?_, ?_, ?_⟩
  · unfold injectionPass
    rw [lookupKey_map_keyed _ (injectFileContent env) path, h]
    rfl
  · intro h1 h2
    unfold injectFileContent
    rw [h1, h2]
    rfl
  · intro li lo h1 h2 hne1 hne2
    unfold injectFileContent
    rw [h1, h2]
    cases li with
    | nil => exact absurd rfl hne1
    | cons a as =>
      cases lo with
      | nil => exact absurd rfl hne2
      | cons b bs => rfl

/-- C7 (witness): the stage decomposition applied to the concrete
environment `c7Env` and tree `c7Files`. -/
theorem resolveFiles_stages_witness :
    lookupKey (normalizeFilePaths (middlewarePass c7Env.fileMiddlewares c7Files))
        "src/main.js" = some "const app = 1"
    ∧ resolveFiles c7Env c7Files
        = postProcessPass c7Env.postProcessFilesCbs
            (injectionPass c7Env
              (normalizeFilePaths (middlewarePass c7Env.fileMiddlewares c7Files))) :=
  ⟨rfl, (resolveFiles_stages c7Env c7Files "src/main.js" "const app = 1" rfl).1⟩

/-- C8: `hasPlugin` is total by construction (it never throws) and returns
true exactly when some candidate — an explicit-invocation plugin id or a
member of the installed set — matches the queried id and, when a version
range is supplied, has an installed version that satisfies the range; an
unmatched id, a failed range test, or a missing/unresolvable installed
version all yield false. -/
theorem hasPlugin_iff (r : PluginRegistry) (id : String) (version : Option String) :
    hasPlugin r id version = true
      ↔ ∃ pid, pid ∈ r.plugins ++ allPlugins r.pkg r.isPlugin
          ∧ matchesPluginId id pid = true
          ∧ ∀ range, version = some range →
              ∃ ver, r.installedVersion pid = some ver ∧ r.rangeTest ver range = true := by
  unfold hasPlugin
  rw [List.any_eq_true]
  constructor
  · rintro ⟨pid, hmem, hpred⟩
    cases hm : matchesPluginId id pid with
    | false =>
      rw [hm] at hpred
      simp at hpred
    | true =>
      rw [hm] at hpred
      simp only [Bool.not_true, Bool.false_eq_true, if_false] at hpred
      refine ⟨pid, hmem, hm, ?_⟩
      intro range hr
      rw [hr] at hpred
      unfold semverSatisfies at hpred
      cases hver : r.installedVersion pid with
      | none =>
        rw [hver] at hpred
        exact absurd hpred (by simp)
      | some ver =>
        rw [hver] at hpred
        exact ⟨ver, rfl, hpred⟩
  · rintro ⟨pid, hmem, hm, hv⟩
    refine ⟨pid, hmem, ?_⟩
    rw [hm]
    simp only [Bool.not_true, Bool.false_eq_true, if_false]
    cases version with
    | none => rfl
    | some range =>
      obtain ⟨ver, hver, htest⟩ := hv range rfl
      unfold semverSatisfies
      rw [hver]
      exact htest

/-- C8 (witness): the characterization applied to a concrete registry,
querying the short id `babel` with the range check succeeding on the
installed version. -/
theorem hasPlugin_iff_witness :
    matchesPluginId "babel" "@vue/cli-plugin-babel" = true
    ∧ hasPlugin c8Reg "babel" (some "^4.0.0") = true := by
  refine ⟨rfl, ?_⟩
  refine (hasPlugin_iff c8Reg "babel" (some "^4.0.0")).mpr
    ⟨"@vue/cli-plugin-babel", by decide, rfl, ?_⟩
  intro range hr
  cases hr
  exact ⟨"4.5.0", rfl, rfl⟩

/-- C9: when `extractAll` is set, every manifest field with a registered
transform — subject to `extract`'s standing guards: the field is truthy in
the working manifest and not truthy in the original manifest — is removed by
extraction; when `extractAll` is unset, no field other than `babel` and
`vue` is ever touched, `vue` is left alone whenever the test flag is set,
`babel` is extracted under the guards regardless of the flag, and `vue` is
extracted under the guards exactly when the flag is unset. -/
theorem extractConfigFiles_selection :
    (∀ (tr : String → Option ConfigTransform) (t c : Bool) (st : GenState) (k : String),
      (tr k).isSome = true → truthyAt st.pkg k = true → truthyAt st.originalPkg k = false →
      lookupKey (extractConfigFiles tr t true c st).pkg k = none)
    ∧ (∀ (tr : String → Option ConfigTransform) (t c : Bool) (st : GenState) (k : String),
        k ≠ "babel" → k ≠ "vue" →
        lookupKey (extractConfigFiles tr t false c st).pkg k = lookupKey st.pkg k)
    ∧ (∀ (tr : String → Option ConfigTransform) (c : Bool) (st : GenState),
        lookupKey (extractConfigFiles tr true false c st).pkg "vue"
          = lookupKey st.pkg "vue")
    ∧ (∀ (tr : String → Option ConfigTransform) (t c : Bool) (st : GenState),
        (tr "babel").isSome = true → truthyAt st.pkg "babel" = true →
        truthyAt st.originalPkg "babel" = false →
        lookupKey (extractConfigFiles tr t false c st).pkg "babel" = none)
    ∧ (∀ (tr : String → Option ConfigTransform) (c : Bool) (st : GenState),
        (tr "vue").isSome = true → truthyAt st.pkg "vue" = true →
        truthyAt st.originalPkg "vue" = false →
        lookupKey (extractConfigFiles tr false false c st).pkg "vue" = none) := by
  refine ⟨?_, ?_, ?_, ?_, ?_⟩
  · intro tr t c st k htr hpkg horig
    show lookupKey (extractFold tr c (st.pkg.map Prod.fst) st).pkg k = none
    have hmem : k ∈ st.pkg.map Prod.fst := by
      unfold truthyAt at hpkg
      cases hl : lookupKey st.pkg k with
      | none =>
        rw [hl] at hpkg
        exact absurd hpkg (by simp)
      | some v => exact mem_keys_of_lookup_some hl
    exact extractFold_extracts tr c k htr (st.pkg.map Prod.fst) st hmem hpkg horig
  · intro tr t c st k hkb hkv
    cases t with
    | true =>
      show lookupKey (extractOne tr c "babel" st).pkg k = lookupKey st.pkg k
      exact extractOne_lookup_ne tr c "babel" k st hkb
    | false =>
      show lookupKey (extractOne tr c "babel" (extractOne tr c "vue" st)).pkg k
        = lookupKey st.pkg k
      rw [extractOne_lookup_ne tr c "babel" k _ hkb,
        extractOne_lookup_ne tr c "vue" k st hkv]
  · intro tr c st
    show lookupKey (extractOne tr c "babel" st).pkg "vue" = lookupKey st.pkg "vue"
    exact extractOne_lookup_ne tr c "babel" "vue" st (by decide)
  · intro tr t c st htr hpkg horig
    cases t with
    | true =>
      show lookupKey (extractOne tr c "babel" st).pkg "babel" = none
      exact extractOne_extracts tr c "babel" st htr hpkg horig
    | false =>
      show lookupKey (extractOne tr c "babel" (extractOne tr c "vue" st)).pkg "babel" = none
      refine extractOne_extracts tr c "babel" _ htr ?_ ?_
      · rw [truthyAt_extractOne_ne tr c "vue" "babel" st (by decide)]
        exact hpkg
      · rw [extractOne_originalPkg]
        exact horig
  · intro tr c st htr hpkg horig
    show lookupKey (extractOne tr c "babel" (extractOne tr c "vue" st)).pkg "vue" = none
    rw [extractOne_lookup_ne tr c "babel" "vue" _ (by decide)]
    exact extractOne_extracts tr c "vue" st htr hpkg horig

/-- C9 (witness): with `extractAll` set, the transform-registered field
`eslintConfig` (truthy in the working manifest, absent from the original) is
removed. -/
theorem extractConfigFiles_selection_witness :
    ((mergedTransforms []) "eslintConfig").isSome = true
    ∧ truthyAt c9St.pkg "eslintConfig" = true
    ∧ truthyAt c9St.originalPkg "eslintConfig" = false
    ∧ lookupKey (extractConfigFiles (mergedTransforms []) false true false c9St).pkg
        "eslintConfig" = none :=
  ⟨rfl, rfl, rfl,
    extractConfigFiles_selection.1 (mergedTransforms []) false false c9St "eslintConfig"
      rfl rfl rfl⟩

/-- C10: in `generate`, after extraction and file resolution the tree's
`package.json` entry is overwritten with the pretty-printed two-space-
indented serialization of the sorted manifest plus a trailing newline — so
in the final tree handed to the writer that entry equals this serialization
whatever any plugin, middleware, injection or post-process callback put
there — while the writer also receives the pre-extraction snapshot. -/
theorem generate_sets_manifest_entry (tr : String → Option ConfigTransform)
    (t : Bool) (renv : ResolveEnv) (a c : Bool) (st : GenState) :
    lookupKey (generate tr t renv a c st).files "package.json"
      = some (stringifyJson (.obj (sortPkg (extractConfigFiles tr t a c st).pkg)) ++ "\n")
    ∧ (generate tr t renv a c st).pkg = sortPkg (extractConfigFiles tr t a c st).pkg
    ∧ (generate tr t renv a c st).initialFiles = st.files := by
  refine ⟨?_, rfl, rfl⟩
  exact lookupKey_setKey_self
    (resolveFiles renv (extractConfigFiles tr t a c st).files) "package.json"
    (stringifyJson (.obj (sortPkg (extractConfigFiles tr t a c st).pkg)) ++ "\n")
